import Mathlib

/-!
# Verification of the Addis Traffic AI core

Shallow embedding of the repository's core logic:

* `src/src/app.py` — inference server `predict_congestion` (truncation and
  congestion-band thresholds 100 / 180);
* `src/src/simulation/sim_manager.py` — `AddisTrafficBrain`
  (`optimize_traffic_lights`, `collect_data`, `run`);
* `src/r_traffic_brain.py` — `get_network_stats`, `run_simulation`;
* `src/src/ai/traffic_predictor.py` — `train_brain` (lag/horizon windowing,
  `sklearn.train_test_split` with `shuffle=True, random_state=42`, which is
  modelled bit-exactly via numpy's legacy MT19937 generator and Fisher-Yates
  shuffle);
* `src/src/ai/check_brain.py` — `verify_integrity` (chronological 80/20 split).

Machine reals (vehicle speeds, phase durations, model outputs) are modelled
as rationals; machine integers fit well below any overflow boundary, so they
are plain naturals/integers.  Fallible paths return `Except`/`Option`.
-/

namespace AddisTraffic

/-! ## Data model -/

/-- One row of the telemetry table (`collect_data` appends
`{step, vehicle_count, avg_speed, timestamp}`; synthetic multi-day corpora
additionally carry a `day` column, which the feature builder never reads).
The wall-clock timestamp is irrelevant to every claim and omitted. -/
structure TelemetryRec where
  step : ℕ
  day : ℕ
  vehicle_count : ℕ
  avg_speed : ℚ
deriving DecidableEq

def defaultRec : TelemetryRec := ⟨0, 0, 0, 0⟩

/-- A supervised row produced by the feature/label windowing in
`train_brain` / `verify_integrity`: the five feature columns
`["step", "vehicle_count", "avg_speed", "lag_1min", "lag_5min"]` plus the
`target` column.  `srcIdx` is the pandas row index the row kept through
`dropna` (the original position in the telemetry table). -/
structure FeatureRow where
  srcIdx : ℕ
  step : ℕ
  vehicle_count : ℕ
  avg_speed : ℚ
  lag_1min : ℕ
  lag_5min : ℕ
  target : ℕ
deriving DecidableEq

def defaultRow : FeatureRow := ⟨0, 0, 0, 0, 0, 0, 0⟩

/-! ## Inference server (`src/src/app.py`, `predict_congestion`) -/

/-- The three congestion bands of the dashboard
(`🟢 Free Flow`, `🟡 Moderate Traffic`, `🔴 Severe Congestion`). -/
inductive Band where
  | freeFlow
  | moderate
  | severe
deriving DecidableEq

/-- Python `int(x)`: truncation toward zero. -/
def truncToZero (q : ℚ) : ℤ := if 0 ≤ q then ⌊q⌋ else ⌈q⌉

/-- `app.py` lines 35–41: `status = Free Flow`; `if prediction > 100:`
Moderate; `if prediction > 180:` Severe (two sequential overwrites). -/
def classifyBand (prediction : ℤ) : Band :=
  let s := Band.freeFlow
  let s := if prediction > 100 then Band.moderate else s
  let s := if prediction > 180 then Band.severe else s
  s

def bandLabel : Band → String
  | .freeFlow => "🟢 Free Flow"
  | .moderate => "🟡 Moderate Traffic"
  | .severe => "🔴 Severe Congestion"

/-- Rank of a band, for stating monotonicity. -/
def bandRank : Band → ℕ
  | .freeFlow => 0
  | .moderate => 1
  | .severe => 2

/-- The five slider inputs of the dashboard. -/
structure Inputs where
  step_time : ℚ
  current_count : ℚ
  current_speed : ℚ
  lag1 : ℚ
  lag5 : ℚ

/-- `predict_congestion` (`app.py` lines 18–44).  `modelExists` is the
`os.path.exists(MODEL_PATH)` test; `modelRun inp` is the outcome of
`joblib.load` followed by `model.predict(input_data)[0]` — `.error e`
when that `try` body raises an exception `e`, `.ok q` when it returns the
scalar `q`.  Every path returns a pair of strings. -/
def predictCongestion (modelExists : Bool) (modelRun : Inputs → Except String ℚ)
    (inp : Inputs) : String × String :=
  if modelExists = false then
    ("⚠️ Error: Model not found. Train AI first!", "Error")
  else
    match modelRun inp with
    | .error e => ("Error: " ++ e, "System Failure")
    | .ok predFloat =>
        let prediction := truncToZero predFloat
        (toString prediction ++ " Vehicles", bandLabel (classifyBand prediction))

/-! ## Signal control policy (`sim_manager.py`, `optimize_traffic_lights`) -/

/-- Per-lane signal indicator of an intersection's current phase.  The
policy in the source never queries it; it is part of the state so that
claims about "go"-state conditioning can be stated. -/
inductive Signal where
  | red
  | yellow
  | green
deriving DecidableEq

/-- State of one controlled intersection as seen through TraCI:
per-controlled-lane halting counts (`getLastStepHaltingNumber`), the
per-lane phase indicator, and the current phase duration
(`getPhaseDuration`). -/
structure Intersection where
  haltingCounts : List ℕ
  phaseState : List Signal
  phaseDuration : ℚ
deriving DecidableEq

/-- The loop `max_queue_length = 0; for lane in controlled_lanes: if queue >
max_queue_length: max_queue_length = queue`. -/
def maxQueue (halting : List ℕ) : ℕ :=
  halting.foldl (fun m q => if q > m then q else m) 0

/-- Body of `optimize_traffic_lights` for one traffic light: if
`max_queue_length > 10`, `setPhaseDuration(tls_id, current + 10)`;
otherwise no TraCI command is issued.  The phase indicator is never read. -/
def optimizeTls (i : Intersection) : Intersection :=
  if maxQueue i.haltingCounts > 10 then
    { i with phaseDuration := i.phaseDuration + 10 }
  else
    i

/-- `optimize_traffic_lights` over `traci.trafficlight.getIDList()`:
each intersection is treated independently. -/
def optimizeTrafficLights (tls : List Intersection) : List Intersection :=
  tls.map optimizeTls

/-- The phase indicator shows at least one lane in a "go" state. -/
def hasGo (i : Intersection) : Prop := Signal.green ∈ i.phaseState

instance (i : Intersection) : Decidable (hasGo i) :=
  inferInstanceAs (Decidable (Signal.green ∈ i.phaseState))

/-! ## Telemetry harvester (`collect_data` / `get_network_stats`) -/

/-- A per-step sensor snapshot: one speed per active vehicle
(`traci.vehicle.getSpeed` over `traci.vehicle.getIDList()`).
`traci.vehicle.getIDCount()` is the length of that list. -/
structure Snapshot where
  speeds : List ℚ

def vehicleCount (s : Snapshot) : ℕ := s.speeds.length

/-- `sum(all_speeds) / len(all_speeds) if all_speeds else 0.0`. -/
def meanOr0 (speeds : List ℚ) : ℚ :=
  if speeds.isEmpty then 0 else speeds.sum / speeds.length

/-- Round-half-to-even to an integer (the rounding mode of Python's
built-in `round`). -/
def roundHalfEvenZ (q : ℚ) : ℤ :=
  let f := ⌊q⌋
  let r := q - f
  if r < 1 / 2 then f
  else if 1 / 2 < r then f + 1
  else if f % 2 = 0 then f else f + 1

/-- Python `round(x, 2)`. -/
def round2 (q : ℚ) : ℚ := (roundHalfEvenZ (q * 100) : ℚ) / 100

/-- `collect_data` (`sim_manager.py` lines 91–114): appends one record with
`vehicle_count = getIDCount()`, `avg_speed = round(mean-or-0, 2)`.
Harvested telemetry carries no day tag (`day = 0`). -/
def collectData (snap : Snapshot) (step : ℕ) : TelemetryRec :=
  { step := step
    day := 0
    vehicle_count := vehicleCount snap
    avg_speed := round2 (meanOr0 snap.speeds) }

/-- `get_network_stats` (`r_traffic_brain.py` lines 11–21): the same
count/mean pair, without rounding. -/
def getNetworkStats (snap : Snapshot) : ℕ × ℚ :=
  (vehicleCount snap, meanOr0 snap.speeds)

/-! ## Feature/label builder (`train_brain` lines 38–59, identically
`verify_integrity` lines 16–21)

`df["target"] = df["vehicle_count"].shift(-300)`,
`df["lag_1min"] = df["vehicle_count"].shift(60)`,
`df["lag_5min"] = df["vehicle_count"].shift(300)`, then `df.dropna()`.
`shift` is purely positional over the whole frame: the `day` column, when
present, plays no role.  A shifted cell is NaN exactly when the source
position falls outside the table, and `dropna` drops exactly the rows with
at least one NaN cell. -/

def HORIZON : ℕ := 300

/-- `df["vehicle_count"].shift(k)` read at row `i` (`k ≥ 0` shifts down, so
the value comes from row `i - k`); `none` is NaN. -/
def shiftVal (tbl : List TelemetryRec) (k i : ℕ) : Option ℕ :=
  if k ≤ i then (tbl[i - k]?).map (·.vehicle_count) else none

/-- `df["vehicle_count"].shift(-HORIZON)` read at row `i`. -/
def targetVal (tbl : List TelemetryRec) (i : ℕ) : Option ℕ :=
  (tbl[i + HORIZON]?).map (·.vehicle_count)

/-- The row the windowing keeps at position `i`, if `dropna` keeps it:
all of `lag_1min`, `lag_5min`, `target` must be non-NaN. -/
def featureAt (tbl : List TelemetryRec) (i : ℕ) : Option FeatureRow :=
  (tbl[i]?).bind fun r =>
  (shiftVal tbl 60 i).bind fun l1 =>
  (shiftVal tbl 300 i).bind fun l5 =>
  (targetVal tbl i).map fun tg =>
    { srcIdx := i
      step := r.step
      vehicle_count := r.vehicle_count
      avg_speed := r.avg_speed
      lag_1min := l1
      lag_5min := l5
      target := tg }

/-- The cleaned supervised dataset `df_clean`, in table order. -/
def buildFeatures (tbl : List TelemetryRec) : List FeatureRow :=
  (List.range tbl.length).filterMap (featureAt tbl)

/-- Row at position `j`, with a default for out-of-range positions (used
only to state closed forms; every use is guarded to be in range). -/
def dRec (tbl : List TelemetryRec) (j : ℕ) : TelemetryRec :=
  (tbl[j]?).getD defaultRec

/-- Closed form of the row kept at position `i`. -/
def mkRowD (tbl : List TelemetryRec) (i : ℕ) : FeatureRow :=
  { srcIdx := i
    step := (dRec tbl i).step
    vehicle_count := (dRec tbl i).vehicle_count
    avg_speed := (dRec tbl i).avg_speed
    lag_1min := (dRec tbl (i - 60)).vehicle_count
    lag_5min := (dRec tbl (i - 300)).vehicle_count
    target := (dRec tbl (i + HORIZON)).vehicle_count }

/-- The day tag recorded at table position `j`, if any. -/
def dayAt (tbl : List TelemetryRec) (j : ℕ) : Option ℕ :=
  (tbl[j]?).map (·.day)

/-- The day-partition invariant claimed of the builder: every kept row
reads its two lag cells and its target cell from its own day. -/
def dayInvariant (tbl : List TelemetryRec) : Prop :=
  ∀ r ∈ buildFeatures tbl,
    dayAt tbl (r.srcIdx - 60) = dayAt tbl r.srcIdx ∧
    dayAt tbl (r.srcIdx - 300) = dayAt tbl r.srcIdx ∧
    dayAt tbl (r.srcIdx + HORIZON) = dayAt tbl r.srcIdx

/-- Relabel the day column (leaving every other column alone). -/
def setDays (g : ℕ → ℕ) (tbl : List TelemetryRec) : List TelemetryRec :=
  tbl.map fun r => { r with day := g r.day }

/-! ## Evaluator split (`check_brain.py`, `verify_integrity` lines 29–31)

`cutoff = int(len(X) * 0.8); X.iloc[:cutoff] / X.iloc[cutoff:]`.
For the relevant sizes `int(n * 0.8)` computed through binary doubles
equals `4 * n / 5` in exact arithmetic: the double nearest `0.8` exceeds
`4/5` by `≈ 4.4e-17`, far less than half an ulp of any product that has an
integral part, so truncation is unaffected. -/
def chronoSplit (xs : List FeatureRow) : List FeatureRow × List FeatureRow :=
  let cutoff := 4 * xs.length / 5
  (xs.take cutoff, xs.drop cutoff)

/-! ## Trainer split (`traffic_predictor.py`, `train_brain` lines 64–66)

`train_test_split(X, y, test_size=0.2, random_state=42, shuffle=True)`.
sklearn draws `permutation = RandomState(42).permutation(n)`, takes
`test = permutation[:n_test]` and `train = permutation[n_test:n_test+n_train]`
with `n_test = ceil(0.2 * n)` and `n_train = n - n_test`, raising
`ValueError` before fitting when the train side would be empty.  numpy's
legacy `RandomState` is the 32-bit Mersenne Twister MT19937 with
Knuth-style integer seeding, and `permutation` is a descending
Fisher-Yates shuffle whose bounded draws use masked rejection sampling.
All of that is reproduced bit-exactly below.  (`ceil(0.2 * n)` through
binary doubles equals `ceil(n / 5)` exactly for every feasible `n`: the
double nearest `0.2` exceeds `1/5` by `≈ 1.1e-17`, which never carries the
product past the next integer.) -/

/-- MT19937 generator state: 624 32-bit words and a read position. -/
structure MTState where
  key : List ℕ
  pos : ℕ

/-- numpy `mt19937_seed` word stream: `key[0] = seed & 0xffffffff`,
`key[p+1] = (1812433253 * (key[p] ^ (key[p] >> 30)) + p + 1) & 0xffffffff`. -/
def mtInitFrom (s p fuel : ℕ) : List ℕ :=
  match fuel with
  | 0 => []
  | fuel + 1 =>
      s :: mtInitFrom ((1812433253 * (s ^^^ (s >>> 30)) + p + 1) &&& 0xffffffff)
        (p + 1) fuel

/-- Freshly seeded state; `pos = 624` forces a twist before the first
output, exactly as in `randomkit.c`. -/
def mtFresh (seed : ℕ) : MTState :=
  ⟨mtInitFrom (seed &&& 0xffffffff) 0 624, 624⟩

/-- One word of the MT19937 state regeneration ("twist"), performed in
place in index order, so positions below `i` read already-regenerated
words and positions above read old words — exactly the C loop. -/
def twistStep (arr : List ℕ) (i : ℕ) : List ℕ :=
  let cur := (arr[i]?).getD 0
  let nxt := (arr[(i + 1) % 624]?).getD 0
  let y := (cur &&& 0x80000000) ||| (nxt &&& 0x7fffffff)
  let v := ((arr[(i + 397) % 624]?).getD 0) ^^^ (y >>> 1) ^^^
    (if y &&& 1 = 1 then 0x9908b0df else 0)
  arr.set i v

def twist (arr : List ℕ) : List ℕ :=
  (List.range 624).foldl twistStep arr

/-- The MT19937 output tempering. -/
def temper (x : ℕ) : ℕ :=
  let y := x ^^^ (x >>> 11)
  let y := y ^^^ ((y <<< 7) &&& 0x9d2c5680)
  let y := y ^^^ ((y <<< 15) &&& 0xefc60000)
  y ^^^ (y >>> 18)

/-- `rk_random`: next raw 32-bit output. -/
def nextUInt32 (st : MTState) : ℕ × MTState :=
  let st := if 624 ≤ st.pos then ⟨twist st.key, 0⟩ else st
  (temper ((st.key[st.pos]?).getD 0), ⟨st.key, st.pos + 1⟩)

/-- The smallest all-ones mask covering `mx` (`rk_interval`'s mask). -/
def maskFor (mx : ℕ) : ℕ :=
  let m := mx
  let m := m ||| (m >>> 1)
  let m := m ||| (m >>> 2)
  let m := m ||| (m >>> 4)
  let m := m ||| (m >>> 8)
  m ||| (m >>> 16)

/-- Rejection loop of `rk_interval`: draw `rk_random() & mask` until the
value is `≤ mx`.  The C loop has no bound; rejection succeeds with
probability `> 1/2` per draw, so 64 attempts model it faithfully for any
run that terminates (and every concrete evaluation below accepts within
the first few draws). -/
def rkGo (mx mask : ℕ) (st : MTState) : ℕ → ℕ × MTState
  | 0 => (0, st)
  | fuel + 1 =>
      let (r, st') := nextUInt32 st
      let v := r &&& mask
      if v ≤ mx then (v, st') else rkGo mx mask st' fuel

/-- `rk_interval(mx)`: uniform draw in `[0, mx]`. -/
def rkInterval (mx : ℕ) (st : MTState) : ℕ × MTState :=
  if mx = 0 then (0, st) else rkGo mx (maskFor mx) st 64

/-- Swap two positions of a list (numpy's in-place element swap). -/
def swapL (arr : List ℕ) (i j : ℕ) : List ℕ :=
  let xi := (arr[i]?).getD 0
  let xj := (arr[j]?).getD 0
  (arr.set i xj).set j xi

/-- Descending Fisher-Yates: `for i in reversed(range(1, n)):
j = rk_interval(i); swap(arr[i], arr[j])`. -/
def fyGo (st : MTState) (arr : List ℕ) : ℕ → List ℕ × MTState
  | 0 => (arr, st)
  | i + 1 =>
      let (j, st') := rkInterval (i + 1) st
      fyGo st' (swapL arr (i + 1) j) i

/-- `RandomState(seed).permutation(n)`. -/
def mtPermutation (seed n : ℕ) : List ℕ :=
  (fyGo (mtFresh seed) (List.range n) (n - 1)).1

/-- `X.iloc[idx]`: gather rows by position.  sklearn only ever passes
in-range positions, so the default row is never selected. -/
def selectRows (ds : List FeatureRow) (idx : List ℕ) : List FeatureRow :=
  idx.map fun j => (ds[j]?).getD defaultRow

/-- `n_test = ceil(0.2 * n)`. -/
def nTestOf (n : ℕ) : ℕ := (n + 4) / 5

/-- `n_train = n - n_test`. -/
def nTrainOf (n : ℕ) : ℕ := n - nTestOf n

/-- `train_test_split(X, y, test_size=0.2, random_state=42, shuffle=True)`
restricted to the row split it induces: `.error` is the `ValueError`
sklearn raises (before any fitting) when the train partition would be
empty. -/
def trainSplit (ds : List FeatureRow) :
    Except String (List FeatureRow × List FeatureRow) :=
  if nTrainOf ds.length = 0 then
    .error "the resulting train set will be empty"
  else
    .ok (selectRows ds
           (((mtPermutation 42 ds.length).drop (nTestOf ds.length)).take
             (nTrainOf ds.length)),
         selectRows ds ((mtPermutation 42 ds.length).take (nTestOf ds.length)))

/-- `train_brain` up to the point the model is fitted: window the
telemetry, then split.  `.ok (train, test)` means
`model.fit(X_train, y_train)` is reached with exactly those rows. -/
def trainBrain (tbl : List TelemetryRec) :
    Except String (List FeatureRow × List FeatureRow) :=
  trainSplit (buildFeatures tbl)

/-- The chronology a split could be claimed to have: every train row
precedes every test row in time. -/
def splitChronoB : Except String (List FeatureRow × List FeatureRow) → Bool
  | .error _ => true
  | .ok (tr, te) => tr.all fun a => te.all fun b => decide (a.step < b.step)

/-! ## Run loops (`sim_manager.py` `run` lines 116–143;
`r_traffic_brain.py` `run_simulation` lines 36–62)

Each loop iteration either records one telemetry row and continues, stops
because the engine reports no remaining demand, or raises — either a
`KeyboardInterrupt` or some other mid-step exception.  The step ceiling is
modelled by the length of the event list.  The result captures what the
claims are about: how many rows reached the sink, whether the engine
connection was closed, and which fault (if any) escaped the function. -/

inductive StepEvent where
  | ok
  | noDemand
  | interrupt
  | failure
deriving DecidableEq

inductive Fault where
  | interrupt
  | failure
deriving DecidableEq

structure RunResult where
  flushedRows : Option ℕ
  closed : Bool
  fault : Option Fault
deriving DecidableEq

/-- `AddisTrafficBrain.run`: `try: loop` / `except KeyboardInterrupt: pass`
/ `finally: save_data(); traci.close()`.  A `KeyboardInterrupt` is caught;
any other exception propagates after the `finally` block has flushed the
buffer and closed the connection. -/
def runSimManagerGo : List StepEvent → ℕ → RunResult
  | [], acc => ⟨some acc, true, none⟩
  | .noDemand :: _, acc => ⟨some acc, true, none⟩
  | .ok :: rest, acc => runSimManagerGo rest (acc + 1)
  | .interrupt :: _, acc => ⟨some acc, true, none⟩
  | .failure :: _, acc => ⟨some acc, true, some .failure⟩

def runSimManager (evts : List StepEvent) : RunResult :=
  runSimManagerGo evts 0

/-- `run_simulation`: the csv rows already written stay flushed via the
`with open(...)` block, `finally: traci.close()` always runs, and
`except Exception` catches ordinary step failures — but a
`KeyboardInterrupt` is not an `Exception` subclass, so it escapes. -/
def runRSimGo : List StepEvent → ℕ → RunResult
  | [], acc => ⟨some acc, true, none⟩
  | .noDemand :: _, acc => ⟨some acc, true, none⟩
  | .ok :: rest, acc => runRSimGo rest (acc + 1)
  | .interrupt :: _, acc => ⟨some acc, true, some .interrupt⟩
  | .failure :: _, acc => ⟨some acc, true, none⟩

def runRSim (evts : List StepEvent) : RunResult :=
  runRSimGo evts 0

/-- Steps actually recorded before the loop ends: the longest prefix of
completed iterations. -/
def recordedCount : List StepEvent → ℕ
  | .ok :: rest => recordedCount rest + 1
  | _ => 0

/-! ## Concrete instances used by counterexamples and witnesses -/

/-- A five-row feature dataset with strictly increasing time keys
(`step = position`). -/
def dsC1 : List FeatureRow :=
  [⟨0, 0, 5, 1, 5, 5, 5⟩, ⟨1, 1, 5, 1, 5, 5, 5⟩, ⟨2, 2, 5, 1, 5, 5, 5⟩,
   ⟨3, 3, 5, 1, 5, 5, 5⟩, ⟨4, 4, 5, 1, 5, 5, 5⟩]

/-- A two-day telemetry table: positions 0–600 are day 1, positions
601–900 are day 2. -/
def ctblC2 : List TelemetryRec :=
  (List.range 901).map fun i => ⟨i, if i ≤ 600 then 1 else 2, 0, 0⟩

/-- A single-day table of exactly 3600 rows, `step = position`. -/
def tblC5 : List TelemetryRec :=
  (List.range 3600).map fun i => ⟨i, 0, 0, 0⟩

/-- An intersection with an 11-car queue whose current phase shows no lane
in a "go" state. -/
def iC3 : Intersection := ⟨[11], [Signal.red], 30⟩

/-- A snapshot with one vehicle at `1/256` m/s (a number exactly
representable as a binary double, so its float mean is exact too). -/
def snapC4 : Snapshot := ⟨[1 / 256]⟩

def inpZero : Inputs := ⟨0, 0, 0, 0, 0⟩

/-! # Theorems -/

/-! ## Feature/label builder: structure lemmas -/

lemma dRec_spec (tbl : List TelemetryRec) (j : ℕ) (h : j < tbl.length) :
    tbl[j]? = some (dRec tbl j) := by
  simp [dRec, List.getElem?_eq_getElem h]

lemma shiftVal_some (tbl : List TelemetryRec) (k i : ℕ) (hk : k ≤ i)
    (h : i - k < tbl.length) :
    shiftVal tbl k i = some ((dRec tbl (i - k)).vehicle_count) := by
  simp [shiftVal, hk, dRec_spec tbl (i - k) h]

lemma shiftVal_none (tbl : List TelemetryRec) (k i : ℕ) (hk : ¬ k ≤ i) :
    shiftVal tbl k i = none := by
  simp [shiftVal, hk]

lemma targetVal_some (tbl : List TelemetryRec) (i : ℕ)
    (h : i + HORIZON < tbl.length) :
    targetVal tbl i = some ((dRec tbl (i + HORIZON)).vehicle_count) := by
  simp [targetVal, dRec_spec tbl (i + HORIZON) h]

lemma targetVal_none (tbl : List TelemetryRec) (i : ℕ)
    (h : tbl.length ≤ i + HORIZON) :
    targetVal tbl i = none := by
  simp [targetVal, List.getElem?_eq_none h]

/-- `dropna` keeps position `i` exactly when `300 ≤ i` and
`i + HORIZON < n`, and then the kept row is `mkRowD tbl i`. -/
lemma featureAt_of_lt (tbl : List TelemetryRec) (i : ℕ) (h : i < tbl.length) :
    featureAt tbl i =
      if 300 ≤ i ∧ i + HORIZON < tbl.length then some (mkRowD tbl i) else none := by
  by_cases h3 : 300 ≤ i
  · by_cases ht : i + HORIZON < tbl.length
    · rw [if_pos ⟨h3, ht⟩]
      simp [featureAt, dRec_spec tbl i h,
        shiftVal_some tbl 60 i (by omega) (by omega),
        shiftVal_some tbl 300 i h3 (by omega),
        targetVal_some tbl i ht, mkRowD]
    · rw [if_neg (by tauto)]
      simp [featureAt, dRec_spec tbl i h,
        shiftVal_some tbl 60 i (by omega) (by omega),
        shiftVal_some tbl 300 i h3 (by omega),
        targetVal_none tbl i (by omega)]
  · rw [if_neg (by tauto)]
    have h300 := shiftVal_none tbl 300 i h3
    cases htb : tbl[i]? <;> cases hs60 : shiftVal tbl 60 i <;>
      simp [featureAt, htb, hs60, h300]

lemma filterMap_featureAt_eq (tbl : List TelemetryRec) (l : List ℕ)
    (hl : ∀ i ∈ l, i < tbl.length) :
    l.filterMap (featureAt tbl) =
      (l.filter fun i => decide (300 ≤ i ∧ i + HORIZON < tbl.length)).map
        (mkRowD tbl) := by
  induction l with
  | nil => simp
  | cons a l ih =>
    have ha : a < tbl.length := hl a (by simp)
    have ih' := ih fun i hi => hl i (by simp [hi])
    rw [List.filterMap_cons, featureAt_of_lt tbl a ha]
    by_cases hc : 300 ≤ a ∧ a + HORIZON < tbl.length
    · simp [hc, ih']
    · simp [hc, ih']

/-- `df_clean` in closed form. -/
lemma buildFeatures_eq (tbl : List TelemetryRec) :
    buildFeatures tbl =
      ((List.range tbl.length).filter
        fun i => decide (300 ≤ i ∧ i + HORIZON < tbl.length)).map (mkRowD tbl) := by
  unfold buildFeatures
  exact filterMap_featureAt_eq tbl _ fun i hi => List.mem_range.mp hi

/-- The retained positions are exactly those with a full window. -/
lemma buildFeatures_srcIdx (tbl : List TelemetryRec) :
    (buildFeatures tbl).map (·.srcIdx) =
      (List.range tbl.length).filter
        fun i => decide (300 ≤ i ∧ i + HORIZON < tbl.length) := by
  rw [buildFeatures_eq, List.map_map]
  have hcomp : ((fun r : FeatureRow => r.srcIdx) ∘ mkRowD tbl) = id := by
    funext i; rfl
  rw [hcomp, List.map_id]

lemma mkRowD_mem_buildFeatures (tbl : List TelemetryRec) (i : ℕ)
    (h3 : 300 ≤ i) (ht : i + HORIZON < tbl.length) :
    mkRowD tbl i ∈ buildFeatures tbl := by
  rw [buildFeatures_eq]
  exact List.mem_map.mpr
    ⟨i, List.mem_filter.mpr ⟨List.mem_range.mpr (by omega), by simp [h3, ht]⟩, rfl⟩

lemma dRec_setDays_step (g : ℕ → ℕ) (tbl : List TelemetryRec) (j : ℕ) :
    (dRec (setDays g tbl) j).step = (dRec tbl j).step := by
  simp only [dRec, setDays, List.getElem?_map]
  cases tbl[j]? <;> rfl

lemma dRec_setDays_vc (g : ℕ → ℕ) (tbl : List TelemetryRec) (j : ℕ) :
    (dRec (setDays g tbl) j).vehicle_count = (dRec tbl j).vehicle_count := by
  simp only [dRec, setDays, List.getElem?_map]
  cases tbl[j]? <;> rfl

lemma dRec_setDays_as (g : ℕ → ℕ) (tbl : List TelemetryRec) (j : ℕ) :
    (dRec (setDays g tbl) j).avg_speed = (dRec tbl j).avg_speed := by
  simp only [dRec, setDays, List.getElem?_map]
  cases tbl[j]? <;> rfl

lemma mkRowD_setDays (g : ℕ → ℕ) (tbl : List TelemetryRec) (i : ℕ) :
    mkRowD (setDays g tbl) i = mkRowD tbl i := by
  simp [mkRowD, dRec_setDays_step, dRec_setDays_vc, dRec_setDays_as]

lemma setDays_length (g : ℕ → ℕ) (tbl : List TelemetryRec) :
    (setDays g tbl).length = tbl.length :=
  List.length_map ..

/-! ## C2: day-partition behaviour of the builder -/

/-- C2 (counterexample).  On the two-day table `ctblC2` the builder keeps
the row at position 600 (day 1) although its target cell at position
600 + 300 = 900 lies in day 2: the day-partition invariant claimed of the
Feature/Label Builder is false — `shift` windows read straight across the
day boundary and the crossing row is not dropped. -/
theorem C2_counterexample : ¬ dayInvariant ctblC2 := by
  intro h
  have hlen : ctblC2.length = 901 := by simp [ctblC2]
  have hmem : mkRowD ctblC2 600 ∈ buildFeatures ctblC2 :=
    mkRowD_mem_buildFeatures _ 600 (by omega)
      (by rw [hlen]; simp [HORIZON])
  have h3 := (h _ hmem).2.2
  have e900 : dayAt ctblC2 ((mkRowD ctblC2 600).srcIdx + HORIZON) = some 2 := by
    simp [dayAt, ctblC2, HORIZON, mkRowD, List.getElem?_map, List.getElem?_range]
  have e600 : dayAt ctblC2 (mkRowD ctblC2 600).srcIdx = some 1 := by
    simp [dayAt, ctblC2, mkRowD, List.getElem?_map, List.getElem?_range]
  rw [e900, e600] at h3
  exact absurd h3 (by decide)

/-- C2 (amended).  The builder ignores the day column entirely: relabeling
days leaves the derived dataset unchanged, and a row is retained exactly
when its positional window fits inside the whole table — `300 ≤ i` and
`i + HORIZON < n` — regardless of any day boundary inside that window. -/
theorem C2_theorem (tbl : List TelemetryRec) (g : ℕ → ℕ) :
    buildFeatures (setDays g tbl) = buildFeatures tbl ∧
    (buildFeatures tbl).map (·.srcIdx) =
      (List.range tbl.length).filter
        fun i => decide (300 ≤ i ∧ i + HORIZON < tbl.length) := by
  refine ⟨?_, buildFeatures_srcIdx tbl⟩
  rw [buildFeatures_eq, buildFeatures_eq, setDays_length]
  exact List.map_congr_left fun i _ => mkRowD_setDays g tbl i

/-! ## C5: exact retention on a 3600-row single-day table -/

/-- Filtering `range n` by membership in `[a, b)` yields the contiguous
block `range' a (min b n - a)`. -/
lemma filter_range_interval (a b : ℕ) :
    ∀ n, (List.range n).filter (fun i => decide (a ≤ i ∧ i < b)) =
      List.range' a (min b n - a) := by
  intro n
  induction n with
  | zero => simp
  | succ n ih =>
    rw [List.range_succ, List.filter_append, ih]
    by_cases hp : a ≤ n ∧ n < b
    · have hmn : min b n = n := by omega
      have hmn' : min b (n + 1) = n + 1 := by omega
      have hcat : List.range' a (n - a) ++ [a + 1 * (n - a)] =
          List.range' a (n - a + 1) := (List.range'_concat ..).symm
      rw [hmn, hmn']
      simp only [List.filter_cons, List.filter_nil]
      rw [if_pos (by simpa using hp)]
      have : a + 1 * (n - a) = n := by omega
      rw [this] at hcat
      rw [hcat]
      congr 1
      omega
    · have : min b n - a = min b (n + 1) - a := by omega
      rw [this]
      simp only [List.filter_cons, List.filter_nil]
      rw [if_neg (by simpa using hp)]
      simp

/-- C5.  For any ordered single-day telemetry table of exactly 3600 rows
(`step` equal to position `0..3599`), the windowing with horizon 300 and
lags {60, 300} retains exactly the rows with `300 ≤ t ≤ 3299`, in temporal
order — 3000 rows. -/
theorem C5_theorem (tbl : List TelemetryRec) (hlen : tbl.length = 3600)
    (hstep : ∀ (i : ℕ) (h : i < tbl.length), tbl[i].step = i) :
    (buildFeatures tbl).map (·.step) = List.range' 300 3000 ∧
    (buildFeatures tbl).length = 3000 := by
  have hmap : (buildFeatures tbl).map (·.step) =
      (buildFeatures tbl).map (·.srcIdx) := by
    refine List.map_congr_left fun r hr => ?_
    rw [buildFeatures_eq] at hr
    obtain ⟨i, hi, rfl⟩ := List.mem_map.mp hr
    have hi' : i < tbl.length := List.mem_range.mp (List.mem_filter.mp hi).1
    have hs : (mkRowD tbl i).step = tbl[i].step := by
      simp [mkRowD, dRec, List.getElem?_eq_getElem hi']
    rw [hs, hstep i hi']; rfl
  have h1 : (buildFeatures tbl).map (·.step) = List.range' 300 3000 := by
    rw [hmap, buildFeatures_srcIdx, hlen]
    have hcong : (List.range 3600).filter
          (fun i => decide (300 ≤ i ∧ i + HORIZON < 3600)) =
        (List.range 3600).filter (fun i => decide (300 ≤ i ∧ i < 3300)) := by
      refine List.filter_congr fun i _ => ?_
      exact decide_eq_decide.mpr (by simp [HORIZON]; omega)
    rw [hcong, filter_range_interval 300 3300 3600]
    norm_num
  refine ⟨h1, ?_⟩
  have h2 := congrArg List.length h1
  simpa using h2

/-- C5 (witness): the theorem applied to the concrete 3600-row table. -/
theorem C5_witness :
    tblC5.length = 3600 ∧ (buildFeatures tblC5).length = 3000 := by
  have hlen : tblC5.length = 3600 := by simp [tblC5]
  have hstep : ∀ (i : ℕ) (h : i < tblC5.length), tblC5[i].step = i := by
    intro i h
    simp [tblC5, List.getElem_map]
  exact ⟨hlen, (C5_theorem tblC5 hlen hstep).2⟩

/-! ## C1: split chronology -/

set_option maxRecDepth 100000 in
set_option maxHeartbeats 4000000 in
/-- C1 (counterexample).  The Trainer's split is not chronological: on the
five-row feature dataset `dsC1` with strictly increasing time keys, the
seed-42 shuffled split of `train_brain` (`shuffle=True`) places the row
with `step = 4` in the train side and the row with `step = 1` in the test
side — the seed-42 permutation of `{0..4}` is `[1, 4, 2, 0, 3]`, so
`test = {1}` and `train = {4, 2, 0, 3}`, and `max(train.step) = 4 > 1 =
min(test.step)`. -/
theorem C1_counterexample : splitChronoB (trainSplit dsC1) = false := by decide

/-- C1 (amended).  Only the Evaluator (`check_brain.verify_integrity`)
splits chronologically: the first `⌊0.8·n⌋` ordered rows are train and the
remainder test, the two sides reassemble to the input in order, and when
the time keys are strictly increasing every train row precedes every test
row in time (`max(train.step) < min(test.step)`).  The Trainer
(`train_brain`) instead splits through the seed-42 random shuffle, and no
multi-day split exists in the code. -/
theorem C1_theorem (xs : List FeatureRow)
    (hsort : xs.Pairwise fun a b => a.step < b.step) :
    (chronoSplit xs).1 ++ (chronoSplit xs).2 = xs ∧
    ∀ a ∈ (chronoSplit xs).1, ∀ b ∈ (chronoSplit xs).2, a.step < b.step := by
  have happ : (chronoSplit xs).1 ++ (chronoSplit xs).2 = xs :=
    List.take_append_drop ..
  refine ⟨happ, ?_⟩
  rw [← happ] at hsort
  exact fun a ha b hb => (List.pairwise_append.mp hsort).2.2 a ha b hb

/-- C1 (witness): the amended theorem applied to the concrete five-row
dataset. -/
theorem C1_witness :
    dsC1.Pairwise (fun a b => a.step < b.step) ∧
    ∀ a ∈ (chronoSplit dsC1).1, ∀ b ∈ (chronoSplit dsC1).2, a.step < b.step :=
  ⟨by decide, (C1_theorem dsC1 (by decide)).2⟩

/-! ## C9: fail-fast on degenerate datasets -/

lemma swapL_length (arr : List ℕ) (i j : ℕ) :
    (swapL arr i j).length = arr.length := by
  simp [swapL]

lemma fyGo_length (i : ℕ) :
    ∀ (st : MTState) (arr : List ℕ), ((fyGo st arr i).1).length = arr.length := by
  induction i with
  | zero => intro st arr; rfl
  | succ i ih =>
    intro st arr
    rw [fyGo]
    rcases hrk : rkInterval (i + 1) st with ⟨j, st'⟩
    simp only [hrk]
    rw [ih st' (swapL arr (i + 1) j), swapL_length]

lemma mtPermutation_length (seed n : ℕ) : (mtPermutation seed n).length = n := by
  simp [mtPermutation, fyGo_length]

lemma selectRows_length (ds : List FeatureRow) (idx : List ℕ) :
    (selectRows ds idx).length = idx.length := by
  simp [selectRows]

/-- C9.  `train_brain` never fits on a degenerate split: when the windowed
dataset has at most one row (in particular, when it is empty) the split
raises before any fitting, and whenever fitting is reached both the train
and the test partition are nonempty. -/
theorem C9_theorem (tbl : List TelemetryRec) :
    ((buildFeatures tbl).length ≤ 1 →
      trainBrain tbl = .error "the resulting train set will be empty") ∧
    (∀ tr te, trainBrain tbl = .ok (tr, te) → tr ≠ [] ∧ te ≠ []) := by
  constructor
  · intro h1
    have hz : nTrainOf (buildFeatures tbl).length = 0 := by
      unfold nTrainOf nTestOf
      omega
    unfold trainBrain trainSplit
    rw [if_pos hz]
  · intro tr te h
    unfold trainBrain trainSplit at h
    by_cases hz : nTrainOf (buildFeatures tbl).length = 0
    · rw [if_pos hz] at h
      exact absurd h (by simp)
    · rw [if_neg hz] at h
      obtain ⟨h1, h2⟩ := Prod.mk.injEq .. ▸ Except.ok.injEq .. ▸ h
      have hn1 : 1 ≤ (buildFeatures tbl).length := by
        unfold nTrainOf nTestOf at hz
        omega
      have htr : tr.length = nTrainOf (buildFeatures tbl).length := by
        rw [← h1, selectRows_length, List.length_take, List.length_drop,
          mtPermutation_length]
        unfold nTrainOf
        omega
      have hte : te.length = nTestOf (buildFeatures tbl).length := by
        rw [← h2, selectRows_length, List.length_take, mtPermutation_length]
        unfold nTrainOf nTestOf at hz
        unfold nTestOf
        omega
      constructor
      · intro hnil
        rw [hnil] at htr
        exact hz htr.symm
      · intro hnil
        rw [hnil] at hte
        have : nTestOf (buildFeatures tbl).length = 0 := hte.symm
        unfold nTestOf at this
        omega

/-- C9 (witness): on an empty telemetry table the windowed dataset is
empty and the trainer errors instead of fitting. -/
theorem C9_witness :
    (buildFeatures ([] : List TelemetryRec)).length ≤ 1 ∧
    trainBrain [] = .error "the resulting train set will be empty" :=
  ⟨by decide, (C9_theorem []).1 (by decide)⟩

/-! ## C3: signal control policy -/

/-- C3 (counterexample).  The policy never reads the phase indicator: at
the intersection `iC3` the queue exceeds the threshold while no lane shows
"go", and the phase duration is mutated (30 → 40) all the same — refuting
the claimed conjunct that a non-"go" phase suppresses the mutation. -/
theorem C3_counterexample :
    10 < maxQueue iC3.haltingCounts ∧ ¬ hasGo iC3 ∧ optimizeTls iC3 ≠ iC3 := by
  refine ⟨by decide, by decide, ?_⟩
  intro h
  have hd := congrArg Intersection.phaseDuration h
  simp [optimizeTls, iC3, maxQueue] at hd

/-- C3 (amended).  For every controlled intersection, independently:
`max_queue ≤ 10` leaves the intersection untouched (for any phase state),
and `max_queue > 10` adds exactly 10 to the current phase duration (again
for any phase state — the indicator is never consulted), changing nothing
else. -/
theorem C3_theorem (tls : List Intersection) (k : ℕ) (hk : k < tls.length) :
    (optimizeTrafficLights tls)[k]? = some (optimizeTls tls[k]) ∧
    (maxQueue tls[k].haltingCounts ≤ 10 → optimizeTls tls[k] = tls[k]) ∧
    (10 < maxQueue tls[k].haltingCounts →
      (optimizeTls tls[k]).phaseDuration = tls[k].phaseDuration + 10 ∧
      (optimizeTls tls[k]).haltingCounts = tls[k].haltingCounts ∧
      (optimizeTls tls[k]).phaseState = tls[k].phaseState) := by
  refine ⟨?_, ?_, ?_⟩
  · simp [optimizeTrafficLights, List.getElem?_map, List.getElem?_eq_getElem hk]
  · intro hle
    simp [optimizeTls, Nat.not_lt.mpr hle]
  · intro hgt
    simp [optimizeTls, hgt]

/-- C3 (witness): the amended theorem applied to the singleton list
holding `iC3`, whose queue is over threshold. -/
theorem C3_witness :
    (0 : ℕ) < [iC3].length ∧ 10 < maxQueue [iC3][0].haltingCounts ∧
    (optimizeTls [iC3][0]).phaseDuration = [iC3][0].phaseDuration + 10 :=
  ⟨by decide, by decide, ((C3_theorem [iC3] 0 (by decide)).2.2 (by decide)).1⟩

/-! ## C4: recorded average speed -/

/-- C4 (counterexample).  `collect_data` records `round(mean, 2)`, not the
mean: with one vehicle at `1/256` m/s (an exact binary double, so the
float mean is exactly `1/256` too) the recorded `avg_speed` is `0.0`,
which differs from the arithmetic mean although `vehicle_count = 1 > 0`. -/
theorem C4_counterexample :
    0 < vehicleCount snapC4 ∧
    (collectData snapC4 0).avg_speed ≠ meanOr0 snapC4.speeds := by
  refine ⟨by decide, ?_⟩
  show round2 (meanOr0 snapC4.speeds) ≠ meanOr0 snapC4.speeds
  have h : meanOr0 snapC4.speeds = 1 / 256 := by
    norm_num [meanOr0, snapC4]
  rw [h]
  have h2 : round2 (1 / 256) = 0 := by
    norm_num [round2, roundHalfEvenZ]
  rw [h2]
  norm_num

/-- C4 (amended).  A recorded row's `vehicle_count` is the snapshot's
vehicle count; its `avg_speed` is exactly `0.0` when the network is empty
(the division is guarded, never a fault) and otherwise the arithmetic mean
rounded to two decimals; the unrounded variant `get_network_stats` returns
the exact mean (or `0.0` when empty). -/
theorem C4_theorem (snap : Snapshot) (step : ℕ) :
    (collectData snap step).vehicle_count = vehicleCount snap ∧
    (vehicleCount snap = 0 →
      (collectData snap step).avg_speed = 0 ∧ (getNetworkStats snap).2 = 0) ∧
    (0 < vehicleCount snap →
      (collectData snap step).avg_speed =
        round2 (snap.speeds.sum / snap.speeds.length) ∧
      (getNetworkStats snap).2 = snap.speeds.sum / snap.speeds.length) := by
  refine ⟨rfl, ?_, ?_⟩
  · intro h0
    have he : snap.speeds.isEmpty = true := by
      rw [List.isEmpty_iff]
      exact List.length_eq_zero.mp h0
    have hm : meanOr0 snap.speeds = 0 := by simp [meanOr0, he]
    have hr : round2 0 = 0 := by norm_num [round2, roundHalfEvenZ]
    constructor
    · show round2 (meanOr0 snap.speeds) = 0
      rw [hm, hr]
    · exact hm
  · intro hpos
    have hne : ¬ (snap.speeds.isEmpty = true) := by
      intro h
      rw [List.isEmpty_iff] at h
      rw [vehicleCount, h] at hpos
      simp at hpos
    have hm : meanOr0 snap.speeds = snap.speeds.sum / snap.speeds.length := by
      rw [meanOr0, if_neg hne]
    exact ⟨congrArg round2 hm, hm⟩

/-- C4 (witness): one vehicle at 2 m/s — the recorded speed is the rounded
mean, here exactly 2. -/
theorem C4_witness :
    0 < vehicleCount ⟨[2]⟩ ∧
    (collectData ⟨[2]⟩ 0).avg_speed =
      round2 ((Snapshot.mk [2]).speeds.sum / (Snapshot.mk [2]).speeds.length) :=
  ⟨by decide, ((C4_theorem ⟨[2]⟩ 0).2.2 (by decide)).1⟩

/-! ## C6: congestion bands -/

/-- C6.  The thresholds 100 / 180 split the non-negative integers into
three disjoint, exhaustive bands — `n ≤ 100` is Free Flow, `100 < n ≤ 180`
is Moderate, `180 < n` is Severe — and the band is a non-decreasing
function of the predicted count. -/
theorem C6_theorem :
    (∀ n : ℕ,
      (((n : ℤ) ≤ 100) ↔ classifyBand n = .freeFlow) ∧
      ((100 < (n : ℤ) ∧ (n : ℤ) ≤ 180) ↔ classifyBand n = .moderate) ∧
      ((180 < (n : ℤ)) ↔ classifyBand n = .severe)) ∧
    (∀ m n : ℕ, m ≤ n →
      bandRank (classifyBand m) ≤ bandRank (classifyBand n)) := by
  constructor
  · intro n
    unfold classifyBand
    refine ⟨?_, ?_, ?_⟩
    all_goals split_ifs
    all_goals simp_all [bandRank]
    all_goals omega
  · intro m n hmn
    unfold classifyBand
    split_ifs
    all_goals simp_all [bandRank]
    all_goals omega

/-- C6 (witness): the monotonicity part applied at 50 ≤ 150, together with
the band characterization at both points. -/
theorem C6_witness :
    classifyBand 50 = .freeFlow ∧ classifyBand 150 = .moderate ∧
    bandRank (classifyBand 50) ≤ bandRank (classifyBand 150) :=
  ⟨(C6_theorem.1 50).1.mp (by decide), (C6_theorem.1 150).2.1.mp (by decide),
   C6_theorem.2 50 150 (by decide)⟩

/-! ## C7: run-loop exit paths -/

lemma runSimManagerGo_spec (evts : List StepEvent) :
    ∀ acc : ℕ,
      (runSimManagerGo evts acc).flushedRows = some (acc + recordedCount evts) ∧
      (runSimManagerGo evts acc).closed = true ∧
      (runSimManagerGo evts acc).fault ≠ some Fault.interrupt := by
  induction evts with
  | nil => intro acc; simp [runSimManagerGo, recordedCount]
  | cons e rest ih =>
    intro acc
    cases e with
    | ok =>
      have hstep : runSimManagerGo (.ok :: rest) acc = runSimManagerGo rest (acc + 1) := rfl
      rw [hstep]
      have hr := ih (acc + 1)
      refine ⟨?_, hr.2.1, hr.2.2⟩
      rw [hr.1]
      have harith : acc + 1 + recordedCount rest =
          acc + recordedCount (StepEvent.ok :: rest) := by
        simp [recordedCount]
        omega
      rw [harith]
    | noDemand => simp [runSimManagerGo, recordedCount]
    | interrupt => simp [runSimManagerGo, recordedCount]
    | failure => simp [runSimManagerGo, recordedCount]

lemma runRSimGo_spec (evts : List StepEvent) :
    ∀ acc : ℕ,
      (runRSimGo evts acc).flushedRows = some (acc + recordedCount evts) ∧
      (runRSimGo evts acc).closed = true ∧
      (runRSimGo evts acc).fault ≠ some Fault.failure := by
  induction evts with
  | nil => intro acc; simp [runRSimGo, recordedCount]
  | cons e rest ih =>
    intro acc
    cases e with
    | ok =>
      have hstep : runRSimGo (.ok :: rest) acc = runRSimGo rest (acc + 1) := rfl
      rw [hstep]
      have hr := ih (acc + 1)
      refine ⟨?_, hr.2.1, hr.2.2⟩
      rw [hr.1]
      have harith : acc + 1 + recordedCount rest =
          acc + recordedCount (StepEvent.ok :: rest) := by
        simp [recordedCount]
        omega
      rw [harith]
    | noDemand => simp [runRSimGo, recordedCount]
    | interrupt => simp [runRSimGo, recordedCount]
    | failure => simp [runRSimGo, recordedCount]

/-- C7 (counterexample).  In `r_traffic_brain.run_simulation` the loop is
guarded by `except Exception`, which a `KeyboardInterrupt` does not
derive from: a user interrupt at the first step escapes the function as an
unhandled fault (the claim says it never surfaces), even though the
`finally`/`with` blocks still close the connection and flush the rows
written so far. -/
theorem C7_counterexample :
    (runRSim [StepEvent.interrupt]).fault = some Fault.interrupt ∧
    (runRSim [StepEvent.interrupt]).closed = true ∧
    (runRSim [StepEvent.interrupt]).flushedRows = some 0 := by
  decide

/-- C7 (amended).  On every exit path of both drivers — normal completion,
no-demand stop, user interrupt, or mid-loop step failure — the buffer is
flushed with exactly the rows of the steps actually recorded and the
engine connection is released.  `sim_manager.run` catches the user
interrupt (only a non-interrupt step failure can escape, and only after
the cleanup); `r_traffic_brain.run_simulation` conversely catches step
failures but lets a user interrupt escape, again after the cleanup. -/
theorem C7_theorem (evts : List StepEvent) :
    (runSimManager evts).closed = true ∧
    (runSimManager evts).flushedRows = some (recordedCount evts) ∧
    (runSimManager evts).fault ≠ some Fault.interrupt ∧
    (runRSim evts).closed = true ∧
    (runRSim evts).flushedRows = some (recordedCount evts) ∧
    (runRSim evts).fault ≠ some Fault.failure := by
  obtain ⟨f1, c1, i1⟩ := runSimManagerGo_spec evts 0
  obtain ⟨f2, c2, i2⟩ := runRSimGo_spec evts 0
  rw [runSimManager, runRSim]
  exact ⟨c1, by simpa using f1, i1, c2, by simpa using f2, i2⟩

/-! ## C8: predicted count -/

/-- C8 (counterexample).  The server never clamps: a model scalar of
`-3/2` is truncated toward zero to `-1`, a negative predicted count, and
the dashboard dutifully reports "-1 Vehicles" — refuting the claim that
the predicted count is non-negative for every scalar the model may
produce. -/
theorem C8_counterexample :
    truncToZero (-(3 / 2)) = -1 ∧ truncToZero (-(3 / 2)) < 0 ∧
    predictCongestion true (fun _ => .ok (-(3 / 2))) inpZero =
      ("-1 Vehicles", "🟢 Free Flow") := by
  have h : truncToZero (-(3 / 2) : ℚ) = -1 := by
    rw [truncToZero, if_neg (by norm_num)]
    rw [Int.ceil_eq_iff]
    norm_num
  refine ⟨h, by rw [h]; norm_num, ?_⟩
  show (toString (truncToZero (-(3 / 2) : ℚ)) ++ " Vehicles",
    bandLabel (classifyBand (truncToZero (-(3 / 2) : ℚ)))) = _
  rw [h]
  rfl

/-- C8 (amended).  The predicted count is obtained from the model scalar
by truncation toward zero — it is the floor for non-negative scalars,
hence non-negative and within one unit below the scalar whenever the
scalar is non-negative — but the code never clamps, so a scalar at or
below `-1` yields a negative count. -/
theorem C8_theorem (q : ℚ) (mr : Inputs → Except String ℚ) (inp : Inputs)
    (hok : mr inp = .ok q) :
    predictCongestion true mr inp =
      (toString (truncToZero q) ++ " Vehicles",
        bandLabel (classifyBand (truncToZero q))) ∧
    (0 ≤ q → 0 ≤ truncToZero q ∧ (truncToZero q : ℚ) ≤ q ∧
      q < truncToZero q + 1) := by
  constructor
  · unfold predictCongestion
    rw [hok]
    rfl
  · intro hq
    rw [truncToZero, if_pos hq]
    refine ⟨Int.floor_nonneg.mpr hq, Int.floor_le q, ?_⟩
    have := Int.lt_floor_add_one q
    exact_mod_cast this

/-- C8 (witness): the theorem at the scalar `7/2` — the reported count is
3. -/
theorem C8_witness :
    predictCongestion true (fun _ => .ok (7 / 2)) inpZero =
      (toString (truncToZero (7 / 2)) ++ " Vehicles",
        bandLabel (classifyBand (truncToZero (7 / 2)))) ∧
    0 ≤ truncToZero ((7 : ℚ) / 2) :=
  ⟨(C8_theorem (7 / 2) (fun _ => .ok (7 / 2)) inpZero rfl).1,
   ((C8_theorem (7 / 2) (fun _ => .ok (7 / 2)) inpZero rfl).2 (by norm_num)).1⟩

/-! ## C10: the inference function is total -/

/-- C10.  `predict_congestion` returns a pair of strings on every input
and never propagates an exception: a missing model file yields the
explicit "Model not found" pair, an exception `e` raised while loading or
predicting is caught and returned as the `("Error: e", "System Failure")`
pair, and a successful scalar yields the count/band pair. -/
theorem C10_theorem (modelExists : Bool) (mr : Inputs → Except String ℚ)
    (inp : Inputs) :
    (modelExists = false →
      predictCongestion modelExists mr inp =
        ("⚠️ Error: Model not found. Train AI first!", "Error")) ∧
    (∀ e, mr inp = .error e →
      predictCongestion true mr inp = ("Error: " ++ e, "System Failure")) ∧
    (∀ q, mr inp = .ok q →
      predictCongestion true mr inp =
        (toString (truncToZero q) ++ " Vehicles",
          bandLabel (classifyBand (truncToZero q)))) := by
  refine ⟨?_, ?_, ?_⟩
  · intro h
    rw [predictCongestion, h]
    rfl
  · intro e he
    rw [predictCongestion, he]
    rfl
  · intro q hq
    rw [predictCongestion, hq]
    rfl

/-- C10 (witness): the theorem at a run whose load step raises. -/
theorem C10_witness :
    predictCongestion false (fun _ => .error "boom") inpZero =
      ("⚠️ Error: Model not found. Train AI first!", "Error") ∧
    predictCongestion true (fun _ => .error "boom") inpZero =
      ("Error: boom", "System Failure") :=
  ⟨(C10_theorem false (fun _ => .error "boom") inpZero).1 rfl,
   (C10_theorem false (fun _ => .error "boom") inpZero).2.1 "boom" rfl⟩

end AddisTraffic
